import Mathlib

/-!
Shallow embedding of the incident-commander orchestration core
(`src/agents/gemini_orchestrator.py`) and verification of the frozen
claims about it.

Modelling conventions:
* Values produced by `json.loads` are modelled by the inductive `JsonVal`.
* Python exceptions that can escape a piece of code are modelled with
  `Except PyErr`; code that cannot raise is a plain function.
* The two external collaborators (the Elasticsearch store and the
  generative model) are oracles passed in as parameters: the store as an
  `EsEnv` of per-query outcomes, the model as the outcome of each of the
  two `generate_content` calls (decision call folded with `json.loads`
  into an `Option JsonVal`, summary call as an `Except String String`).
-/

/-- A parsed JSON value, the result type of `json.loads`. -/
inductive JsonVal : Type where
  | null : JsonVal
  | bool : Bool → JsonVal
  | num : Int → JsonVal
  | str : String → JsonVal
  | arr : List JsonVal → JsonVal
  | obj : List (String × JsonVal) → JsonVal
deriving Repr, BEq

/-- Python exceptions that the orchestrator code can let escape. -/
inductive PyErr : Type where
  | typeError : PyErr
  | attributeError : PyErr
deriving Repr, DecidableEq

/-- Lookup in a Python dict modelled as an association list, with a default
(`d.get(k, default)` on a dict). -/
def objGetD (kvs : List (String × JsonVal)) (key : String) (d : JsonVal) : JsonVal :=
  (((kvs.find? (fun p => p.1 = key)).map Prod.snd)).getD d

/-- `v.get(key, default)`: succeeds on a dict, raises `AttributeError` on any
other JSON value (Python lists, strings, numbers, booleans and `None` have no
`.get` method). -/
def pyGetD (v : JsonVal) (key : String) (d : JsonVal) : Except PyErr JsonVal :=
  match v with
  | .obj kvs => .ok (objGetD kvs key d)
  | _ => .error .attributeError

/-- `for x in v`: the sequence of values a `for` loop visits. Lists yield
their elements, strings their characters, dicts their keys; numbers,
booleans and `None` are not iterable and raise `TypeError`. -/
def pyIter (v : JsonVal) : Except PyErr (List JsonVal) :=
  match v with
  | .arr xs => .ok xs
  | .str s => .ok (s.toList.map (fun c => .str (String.mk [c])))
  | .obj kvs => .ok (kvs.map (fun p => .str p.1))
  | _ => .error .typeError

/-- Whether a JSON value is hashable in Python (lists and dicts are not). -/
def isHashable : JsonVal → Bool
  | .arr _ => false
  | .obj _ => false
  | _ => true

/-- The keys of the fixed dispatch table `self.tools` built in
`IncidentCommander.__init__`. -/
def catalogNames : List String :=
  ["detect_errors", "detect_metrics", "analyze_incident", "search_runbook"]

/-- The literal `time_map` dict shared (repeated verbatim) by
`detect_error_spikes`, `detect_metric_anomalies` and
`analyze_with_enrichment`. -/
def time_map (tw : String) : Option String :=
  if tw = "1 hour" then some "1h"
  else if tw = "30 minutes" then some "30m"
  else if tw = "24 hours" then some "24h"
  else if tw = "1h" then some "1h"
  else if tw = "30m" then some "30m"
  else none

/-- `esql_time = time_map.get(time_window, "1h")` for a string token. -/
def esql_time (tw : String) : String :=
  (time_map tw).getD "1h"

/-- `time_map.get(time_window, "1h")` on an arbitrary JSON value: raises
`TypeError` on an unhashable key, returns the default for any hashable
non-string key (no string key of the dict equals a number or `None`). -/
def esqlTimeOfVal (v : JsonVal) : Except PyErr String :=
  match v with
  | .arr _ => .error .typeError
  | .obj _ => .error .typeError
  | .str s => .ok (esql_time s)
  | _ => .ok "1h"

/-- A row set plus column names as returned by `es.esql.query`
(`result["values"]`, `result["columns"]`). -/
structure StoreReply : Type where
  values : List (List JsonVal)
  columns : List String
deriving Repr

/-- The `_source` of a hit of the `service-inventory` term query; each field
is read with `dict.get(key, "unknown")`, so absent fields are `none`. -/
structure ServiceSource : Type where
  team : Option String
  oncall_slack_channel : Option String
  criticality : Option String
deriving Repr

/-- A hit of the `runbooks` full-text search (`_source` dict and `_score`). -/
structure SearchHit : Type where
  source : List (String × JsonVal)
  score : JsonVal
deriving Repr

/-- The Elasticsearch boundary: the outcome of each store call the four
tools can make, keyed by the parameters the code embeds into the query.
`.error` models the store call raising (caught by each tool's `try`). -/
structure EsEnv : Type where
  spikeReply : String → JsonVal → Except String StoreReply
  metricReply : String → Except String StoreReply
  analyzeReply : String → Except String StoreReply
  inventoryHits : JsonVal → List ServiceSource
  runbookReply : JsonVal → Except String (List SearchHit)

/-- TOOL 1, `detect_error_spikes(time_window="1 hour", threshold=10)`,
after window normalization: runs the compiled ES|QL query and wraps the
outcome; the `try` catches every store failure as `success: false`. -/
def spikeWithToken (env : EsEnv) (t : String) (threshold : JsonVal) : JsonVal :=
  match env.spikeReply t threshold with
  | .ok r => .obj [("success", .bool true),
      ("data", .arr (r.values.map .arr)),
      ("columns", .arr (r.columns.map .str))]
  | .error e => .obj [("success", .bool false), ("error", .str e)]

/-- TOOL 1 (continued): the whole method; only the window normalization can
raise, the `try` block converts every store failure into `success: false`. -/
def detect_error_spikes (env : EsEnv) (time_window : JsonVal) (threshold : JsonVal) :
    Except PyErr JsonVal :=
  match esqlTimeOfVal time_window with
  | .error pe => .error pe
  | .ok t => .ok (spikeWithToken env t threshold)

/-- TOOL 2, `detect_metric_anomalies(time_window="1 hour")`, after window
normalization. -/
def metricWithToken (env : EsEnv) (t : String) : JsonVal :=
  match env.metricReply t with
  | .ok r => .obj [("success", .bool true),
      ("data", .arr (r.values.map .arr)),
      ("columns", .arr (r.columns.map .str))]
  | .error e => .obj [("success", .bool false), ("error", .str e)]

/-- TOOL 2 (continued): the whole method. -/
def detect_metric_anomalies (env : EsEnv) (time_window : JsonVal) :
    Except PyErr JsonVal :=
  match esqlTimeOfVal time_window with
  | .error pe => .error pe
  | .ok t => .ok (metricWithToken env t)

/-- The per-row enrichment of `analyze_with_enrichment` (lines 150-168):
`service_name = row[0]` (an empty row raises `IndexError`, absorbed by the
surrounding `try`), then a term query on `service-inventory`; zero hits
append three `"unknown"` sentinels, otherwise the first hit's fields are
read with `dict.get(field, "unknown")`. -/
def enrichOneRow (inv : JsonVal → List ServiceSource) (row : List JsonVal) :
    Except String (List JsonVal) :=
  match row with
  | [] => .error "list index out of range"
  | sname :: _ =>
    match inv sname with
    | [] => .ok (row ++ [.str "unknown", .str "unknown", .str "unknown"])
    | s :: _ => .ok (row ++ [.str (s.team.getD "unknown"),
        .str (s.oncall_slack_channel.getD "unknown"),
        .str (s.criticality.getD "unknown")])

/-- TOOL 3, `analyze_with_enrichment(time_window="1 hour")`, after window
normalization: the ES|QL analysis query followed by per-row enrichment; the
whole body is inside one `try`, so any failure yields `success: false`
rather than an exception. -/
def analyzeWithToken (env : EsEnv) (t : String) : JsonVal :=
  match env.analyzeReply t with
  | .error e => .obj [("success", .bool false), ("error", .str e)]
  | .ok r =>
    match r.values.mapM (enrichOneRow env.inventoryHits) with
    | .error e => .obj [("success", .bool false), ("error", .str e)]
    | .ok rows => .obj [("success", .bool true),
        ("data", .arr (rows.map .arr)),
        ("columns", .arr ((r.columns ++ ["team", "slack_channel", "criticality"]).map .str))]

/-- TOOL 3 (continued): the whole method. -/
def analyze_with_enrichment (env : EsEnv) (time_window : JsonVal) :
    Except PyErr JsonVal :=
  match esqlTimeOfVal time_window with
  | .error pe => .error pe
  | .ok t => .ok (analyzeWithToken env t)

/-- TOOL 4, `search_runbooks(search_term)`: full-text search over
`runbooks`, top 3, each hit's `_source` read with `dict.get(key)` (default
`None`); the `try` catches every store failure as `success: false`. -/
def runbookSearchResult (env : EsEnv) (search_term : JsonVal) : JsonVal :=
  match env.runbookReply search_term with
  | .ok hits => .obj [("success", .bool true),
      ("data", .arr (hits.map (fun h => .obj [
        ("title", objGetD h.source "title" .null),
        ("error_pattern", objGetD h.source "error_pattern" .null),
        ("solution", objGetD h.source "solution" .null),
        ("commands", objGetD h.source "commands" .null),
        ("service", objGetD h.source "service" .null),
        ("score", h.score)])))]
  | .error e => .obj [("success", .bool false), ("error", .str e)]

/-- TOOL 4 (continued): the whole method, which never raises. -/
def search_runbooks (env : EsEnv) (search_term : JsonVal) : Except PyErr JsonVal :=
  .ok (runbookSearchResult env search_term)

/-- The declared keyword-parameter names of each tool method. -/
def paramNames (name : String) : List String :=
  if name = "detect_errors" then ["time_window", "threshold"]
  else if name = "search_runbook" then ["search_term"]
  else ["time_window"]

/-- The parameters of each tool method that have no default value. -/
def requiredNames (name : String) : List String :=
  if name = "search_runbook" then ["search_term"] else []

/-- `self.tools[tool_name](**params)`: Python keyword binding — `params`
must be a mapping, its keys must all be declared parameter names, and every
parameter without a default must be supplied (otherwise `TypeError`, which
line 271 does not catch); then the tool body runs with the bound or default
arguments. -/
def callTool (env : EsEnv) (name : String) (params : JsonVal) : Except PyErr JsonVal :=
  match params with
  | .obj kvs =>
    if kvs.all (fun q => (paramNames name).contains q.1)
        && (requiredNames name).all (fun r => kvs.any (fun q => q.1 = r)) then
      if name = "detect_errors" then
        detect_error_spikes env (objGetD kvs "time_window" (.str "1 hour"))
          (objGetD kvs "threshold" (.num 10))
      else if name = "detect_metrics" then
        detect_metric_anomalies env (objGetD kvs "time_window" (.str "1 hour"))
      else if name = "analyze_incident" then
        analyze_with_enrichment env (objGetD kvs "time_window" (.str "1 hour"))
      else if name = "search_runbook" then
        search_runbooks env (objGetD kvs "search_term" .null)
      else .ok .null
    else .error .typeError
  | _ => .error .typeError

/-- `results[tool_name] = ...` on a Python dict: overwrite in place if the
key exists, append otherwise. -/
def insertResult (rs : List (String × JsonVal)) (k : String) (v : JsonVal) :
    List (String × JsonVal) :=
  if rs.any (fun p => p.1 = k) then rs.map (fun p => if p.1 = k then (k, v) else p)
  else rs ++ [(k, v)]

/-- The execution loop of `decide_and_execute` (lines 267-271): visit each
name the decision lists; a name in the dispatch table is executed with its
parameter mapping (both `.get` calls and the keyword binding can raise),
any other hashable value is skipped silently, an unhashable value raises
`TypeError` at the `in self.tools` membership test. -/
def runToolsGo (env : EsEnv) (decision : JsonVal) :
    List JsonVal → List (String × JsonVal) → Except PyErr (List (String × JsonVal))
  | [], acc => .ok acc
  | tn :: rest, acc =>
    match tn with
    | .str s =>
      if catalogNames.contains s then
        match pyGetD decision "parameters" (.obj []) with
        | .error pe => .error pe
        | .ok pv =>
          match pyGetD pv s (.obj []) with
          | .error pe => .error pe
          | .ok p =>
            match callTool env s p with
            | .error pe => .error pe
            | .ok r => runToolsGo env decision rest (insertResult acc s r)
      else runToolsGo env decision rest acc
    | .arr _ => .error .typeError
    | .obj _ => .error .typeError
    | _ => runToolsGo env decision rest acc

/-- Lines 265-271: read `decision.get("tools_to_use", [])`, iterate it, and
run the loop starting from an empty result dict. -/
def runTools (env : EsEnv) (decision : JsonVal) : Except PyErr (List (String × JsonVal)) :=
  match pyGetD decision "tools_to_use" (.arr []) with
  | .error pe => .error pe
  | .ok tv =>
    match pyIter tv with
    | .error pe => .error pe
    | .ok names => runToolsGo env decision names []

/-- The hard-coded fallback decision built in the `except` branch of the
decision call (lines 255-263). -/
def fallbackDecision : JsonVal :=
  .obj [("tools_to_use", .arr [.str "detect_errors"]),
        ("parameters", .obj [("detect_errors",
          .obj [("time_window", .str "1 hour"), ("threshold", .num 10)])])]

/-- Lines 249-263: the decision stage. `attempt` is the outcome of
`model.generate_content` followed by `json.loads` — `none` when either
raised; the `except` branch substitutes the fallback decision. -/
def resolveDecision (attempt : Option JsonVal) : JsonVal :=
  attempt.getD fallbackDecision

/-- `json.dumps` on the JSON-compatible values the tools produce
(modulo whitespace/escaping details that no claim depends on). -/
def dumpJson : JsonVal → String
  | .null => "null"
  | .bool true => "true"
  | .bool false => "false"
  | .num n => toString n
  | .str s => "\"" ++ s ++ "\""
  | .arr xs => "[" ++ String.intercalate ", " (xs.attach.map (fun x => dumpJson x.1)) ++ "]"
  | .obj kvs => "\x7b" ++ String.intercalate ", "
      (kvs.attach.map (fun p => "\"" ++ p.1.1 ++ "\": " ++ dumpJson p.1.2)) ++ "\x7d"
decreasing_by
  · have := List.sizeOf_lt_of_mem x.2
    simp only [JsonVal.arr.sizeOf_spec]
    omega
  · rcases p with ⟨⟨a, b⟩, hmem⟩
    have := List.sizeOf_lt_of_mem hmem
    simp only [Prod.mk.sizeOf_spec] at this
    simp only [JsonVal.obj.sizeOf_spec]
    omega

/-- The terminal artifact returned by `decide_and_execute` (lines 289-293). -/
structure Report : Type where
  decision : JsonVal
  tool_results : List (String × JsonVal)
  response : String
deriving Repr

/-- Lines 280-287: the summarization stage. `sumOutcome` is the outcome of
the formatting `generate_content` call (`.error e` when it raised, carrying
`str(e)`); on failure the raw collected results are dumped into the
response instead. -/
def formatResponse (sumOutcome : Except String String)
    (results : List (String × JsonVal)) : String :=
  match sumOutcome with
  | .ok t => t
  | .error e => "Formatting error: " ++ e ++ "\n\nRaw Results:\n" ++ dumpJson (.obj results)

/-- `IncidentCommander.decide_and_execute(user_query)` (lines 227-293),
parametric in the store boundary and in the outcomes of the two
generative-model calls. The result is `.error pe` exactly when the Python
method lets exception `pe` escape to its caller. -/
def decide_and_execute (env : EsEnv) (user_query : String)
    (decideOutcome : Option JsonVal) (sumOutcome : Except String String) :
    Except PyErr Report :=
  let _ := user_query
  let decision := resolveDecision decideOutcome
  match runTools env decision with
  | .error pe => .error pe
  | .ok results => .ok ⟨decision, results, formatResponse sumOutcome results⟩

/-- An `app-logs` event, with the fields the error-spike ES|QL query reads. -/
structure LogEvent : Type where
  timestamp : Int
  severity : String
  service_name : String
  error_code : String
deriving Repr, DecidableEq

/-- The two `WHERE` stages of the error-spike query (lines 55-57):
`@timestamp > NOW() - window` and `severity IN ("ERROR", "CRITICAL")`. -/
def spikeFiltered (now winSecs : Int) (events : List LogEvent) : List LogEvent :=
  events.filter (fun e => decide (now - winSecs < e.timestamp)
    && (decide (e.severity = "ERROR") || decide (e.severity = "CRITICAL")))

/-- The grouping key of `STATS ... BY service_name, error_code`. -/
def spikeKey (e : LogEvent) : String × String :=
  (e.service_name, e.error_code)

/-- The distinct grouping keys of a row set. -/
def spikeKeys (l : List LogEvent) : List (String × String) :=
  (l.map spikeKey).dedup

/-- `error_count = COUNT(*)` for one group. -/
def spikeCount (l : List LogEvent) (k : String × String) : Nat :=
  l.countP (fun e => decide (spikeKey e = k))

/-- The output of `STATS error_count = COUNT(*) BY service_name, error_code`
applied after the two filters. -/
def errorSpikeGroups (now winSecs : Int) (events : List LogEvent) :
    List ((String × String) × Nat) :=
  (spikeKeys (spikeFiltered now winSecs events)).map
    (fun k => (k, spikeCount (spikeFiltered now winSecs events) k))

/-- The `SORT error_count DESC` order. -/
def byCountDesc (a b : (String × String) × Nat) : Prop :=
  b.2 ≤ a.2

instance : DecidableRel byCountDesc :=
  fun a b => inferInstanceAs (Decidable (b.2 ≤ a.2))

instance : IsTotal ((String × String) × Nat) byCountDesc :=
  ⟨fun a b => le_total b.2 a.2⟩

instance : IsTrans ((String × String) × Nat) byCountDesc :=
  ⟨fun _ _ _ h1 h2 => le_trans h2 h1⟩

/-- The row semantics of the full error-spike ES|QL pipeline compiled by
`detect_error_spikes` (lines 54-62): filter to the window and to
ERROR/CRITICAL severity, group by (service, error code) with counts, keep
`error_count > threshold`, `SORT error_count DESC`, `LIMIT 20`. -/
def errorSpikeResult (now winSecs threshold : Int) (events : List LogEvent) :
    List ((String × String) × Nat) :=
  ((((errorSpikeGroups now winSecs events).filter
      (fun g => decide (threshold < (g.2 : Int)))).insertionSort byCountDesc)).take 20

/-- Whether `pat` is a prefix of the character list `s`. -/
def charsStartWith : List Char → List Char → Bool
  | _, [] => true
  | [], _ :: _ => false
  | c :: cs, p :: ps => decide (c = p) && charsStartWith cs ps

/-- Whether `pat` occurs anywhere in the character list `s`. -/
def charsHaveSub : List Char → List Char → Bool
  | [], pat => pat.isEmpty
  | c :: cs, pat => charsStartWith (c :: cs) pat || charsHaveSub cs pat

/-- Python's substring test `pat in s`. -/
def containsToken (s pat : String) : Bool :=
  charsHaveSub s.toList pat.toList

/-- Modelled from the spec: the severity classification of the notifier
boundary (spec 2 "Notifier Interface", 4.5, 8) is not under `src/` — only
the orchestrator that produces the summary string is. Per the spec, the
summary text is scanned for the literal tokens CRITICAL then WARNING,
defaulting to INFO, with CRITICAL taking precedence. -/
def classify_severity (summary : String) : String :=
  if containsToken summary "CRITICAL" then "CRITICAL"
  else if containsToken summary "WARNING" then "WARNING"
  else "INFO"

/-- Modelled from the spec: the ingestion-trend catalog operation (spec 4.1,
8) is not under `src/`. Signed percentage change of the most recent 24h
event count against the preceding 24h count, rounded to 2 decimals; a zero
previous count yields 0 rather than dividing by zero. -/
def percent_change (lastCount prevCount : Int) : ℚ :=
  if prevCount = 0 then 0
  else ((round ((((lastCount : ℚ) - prevCount) / prevCount * 100) * 100) : ℤ) : ℚ) / 100

/-- One per-source entry of the ingestion-trend result: the source name and
either its percentage change or its error message. -/
structure TrendEntry : Type where
  source : String
  outcome : Except String ℚ
deriving Repr

/-- Modelled from the spec: the ingestion-trend operation over the tracked
sources; `counts` carries, per source, either the (last-24h, previous-24h)
event counts or the error raised while computing them, and a source that
errors yields a per-source error entry rather than aborting the operation. -/
def ingestion_trend (counts : List (String × Except String (Int × Int))) :
    List TrendEntry :=
  counts.map (fun p => ⟨p.1, p.2.map (fun c => percent_change c.1 c.2)⟩)

/-- The condition under which the Python keyword binding
`self.tools[name](**params)` succeeds and the tool body cannot raise:
`params` is a mapping binding only declared parameter names, every
no-default parameter is bound, and the `time_window` argument (where read)
is hashable. -/
def okParams (name : String) (p : JsonVal) : Bool :=
  match p with
  | .obj kvs =>
    kvs.all (fun q => (paramNames name).contains q.1)
    && (requiredNames name).all (fun r => kvs.any (fun q => q.1 = r))
    && isHashable (objGetD kvs "time_window" (.str "1 hour"))
  | _ => false

/-- Decisions on which the execution loop provably cannot raise: a JSON
object whose `tools_to_use` is an array of hashable values and whose
`parameters` is an object supplying acceptable parameters for every
selected catalog tool. -/
def wellFormedDecision (d : JsonVal) : Bool :=
  match d with
  | .obj kvs =>
    (match objGetD kvs "tools_to_use" (.arr []), objGetD kvs "parameters" (.obj []) with
     | .arr ts, .obj pkvs =>
        ts.all (fun t => isHashable t &&
          (match t with
           | .str s => !(catalogNames.contains s) || okParams s (objGetD pkvs s (.obj []))
           | _ => true))
     | _, _ => false)
  | _ => false

/-- A concrete store environment in which every store call fails (used to
instantiate universally quantified theorems at a closed input). -/
def offlineEnv : EsEnv :=
  ⟨fun _ _ => .error "store offline", fun _ => .error "store offline",
   fun _ => .error "store offline", fun _ => [], fun _ => .error "store offline"⟩




/-- A decision that parses as valid JSON but binds an undeclared parameter
name for a known tool. -/
def badParamsDecision : JsonVal :=
  .obj [("tools_to_use", .arr [.str "detect_errors"]),
        ("parameters", .obj [("detect_errors", .obj [("bogus", .num 1)])])]

/-- A concrete reference-dataset lookup containing one fully populated
service record. -/
def invFull : JsonVal → List ServiceSource := fun v =>
  match v with
  | .str "payment-service" =>
      [⟨some "payments", some "#oncall-payments", some "critical"⟩]
  | _ => []

/-- A concrete reference-dataset lookup whose record lacks the
`oncall_slack_channel` attribute. -/
def invPartial : JsonVal → List ServiceSource := fun v =>
  match v with
  | .str "order-service" => [⟨some "commerce", none, some "high"⟩]
  | _ => []

/-- A crafted event set: three ERROR/CRITICAL events for (svc, E1) and one
for (svc2, E2), all inside the window. -/
def spikeEventsW : List LogEvent :=
  [⟨10, "ERROR", "svc", "E1"⟩, ⟨11, "CRITICAL", "svc", "E1"⟩,
   ⟨12, "ERROR", "svc", "E1"⟩, ⟨13, "ERROR", "svc2", "E2"⟩]

lemma detect_error_spikes_ok (env : EsEnv) (tw thr : JsonVal)
    (h : isHashable tw = true) : ∃ r, detect_error_spikes env tw thr = .ok r := by
  cases tw <;> simp only [isHashable, Bool.false_eq_true] at h <;>
    exact ⟨_, rfl⟩

lemma detect_metric_anomalies_ok (env : EsEnv) (tw : JsonVal)
    (h : isHashable tw = true) : ∃ r, detect_metric_anomalies env tw = .ok r := by
  cases tw <;> simp only [isHashable, Bool.false_eq_true] at h <;>
    exact ⟨_, rfl⟩

lemma analyze_with_enrichment_ok (env : EsEnv) (tw : JsonVal)
    (h : isHashable tw = true) : ∃ r, analyze_with_enrichment env tw = .ok r := by
  cases tw <;> simp only [isHashable, Bool.false_eq_true] at h <;>
    exact ⟨_, rfl⟩

lemma search_runbooks_ok (env : EsEnv) (st : JsonVal) :
    ∃ r, search_runbooks env st = .ok r :=
  ⟨_, rfl⟩

lemma callTool_ok (env : EsEnv) (name : String) (p : JsonVal)
    (h : okParams name p = true) : ∃ r, callTool env name p = .ok r := by
  cases p <;> simp only [okParams, Bool.false_eq_true] at h
  rename_i kvs
  rw [Bool.and_assoc, Bool.and_eq_true, Bool.and_eq_true] at h
  obtain ⟨h1, h2, h3⟩ := h
  simp only [callTool, h1, h2, Bool.and_self, if_true]
  by_cases e1 : name = "detect_errors"
  · simp only [e1, if_true]
    exact detect_error_spikes_ok env _ _ h3
  · simp only [e1, if_false]
    by_cases e2 : name = "detect_metrics"
    · simp only [e2, if_true]
      exact detect_metric_anomalies_ok env _ h3
    · simp only [e2, if_false]
      by_cases e3 : name = "analyze_incident"
      · simp only [e3, if_true]
        exact analyze_with_enrichment_ok env _ h3
      · simp only [e3, if_false]
        by_cases e4 : name = "search_runbook"
        · simp only [e4, if_true]
          exact search_runbooks_ok env _
        · simp only [e4, if_false]
          exact ⟨_, rfl⟩

lemma insertResult_keys (acc : List (String × JsonVal)) (k : String) (v : JsonVal)
    (x : String) :
    x ∈ (insertResult acc k v).map Prod.fst ↔ x ∈ acc.map Prod.fst ∨ x = k := by
  unfold insertResult
  by_cases hmem : acc.any (fun p => p.1 = k) = true
  · simp only [hmem, if_true]
    have hkeys : (acc.map (fun p => if p.1 = k then (k, v) else p)).map Prod.fst
        = acc.map Prod.fst := by
      rw [List.map_map]
      apply List.map_congr_left
      intro p _
      by_cases hp : p.1 = k
      · simp [hp]
      · simp [hp]
    rw [hkeys]
    have hk : k ∈ acc.map Prod.fst := by
      rw [List.any_eq_true] at hmem
      obtain ⟨p, hpmem, hpk⟩ := hmem
      simp only [decide_eq_true_eq] at hpk
      exact hpk ▸ List.mem_map_of_mem Prod.fst hpmem
    constructor
    · exact fun hx => Or.inl hx
    · rintro (hx | rfl)
      · exact hx
      · exact hk
  · simp only [hmem, if_false]
    simp [List.mem_append]

lemma runToolsGo_wf (env : EsEnv) (kvs pkvs : List (String × JsonVal))
    (hp : objGetD kvs "parameters" (.obj []) = .obj pkvs) :
    ∀ (names : List JsonVal) (acc : List (String × JsonVal)),
    (∀ tn ∈ names, isHashable tn = true) →
    (∀ s : String, JsonVal.str s ∈ names → catalogNames.contains s = true →
      okParams s (objGetD pkvs s (.obj [])) = true) →
    ∃ res, runToolsGo env (.obj kvs) names acc = .ok res ∧
      ∀ x : String, x ∈ res.map Prod.fst ↔
        (x ∈ acc.map Prod.fst ∨ (JsonVal.str x ∈ names ∧ catalogNames.contains x = true)) := by
  intro names
  induction names with
  | nil =>
    intro acc _ _
    exact ⟨acc, rfl, by simp⟩
  | cons tn rest ih =>
    intro acc hh hok
    have hhrest : ∀ t ∈ rest, isHashable t = true :=
      fun t ht => hh t (List.mem_cons_of_mem _ ht)
    have hokrest : ∀ s : String, JsonVal.str s ∈ rest → catalogNames.contains s = true →
        okParams s (objGetD pkvs s (.obj [])) = true :=
      fun s hs hc => hok s (List.mem_cons_of_mem _ hs) hc
    cases tn with
    | arr l => exact absurd (hh _ (List.mem_cons_self _ _)) (by simp [isHashable])
    | obj l => exact absurd (hh _ (List.mem_cons_self _ _)) (by simp [isHashable])
    | null =>
      obtain ⟨res, heq, hiff⟩ := ih acc hhrest hokrest
      refine ⟨res, by simpa only [runToolsGo] using heq, fun x => ?_⟩
      rw [hiff x]
      simp
    | bool b =>
      obtain ⟨res, heq, hiff⟩ := ih acc hhrest hokrest
      refine ⟨res, by simpa only [runToolsGo] using heq, fun x => ?_⟩
      rw [hiff x]
      simp
    | num n =>
      obtain ⟨res, heq, hiff⟩ := ih acc hhrest hokrest
      refine ⟨res, by simpa only [runToolsGo] using heq, fun x => ?_⟩
      rw [hiff x]
      simp
    | str s =>
      by_cases hc : catalogNames.contains s = true
      · have hps := hok s (List.mem_cons_self _ _) hc
        obtain ⟨r, hr⟩ := callTool_ok env s _ hps
        obtain ⟨res, heq, hiff⟩ := ih (insertResult acc s r) hhrest hokrest
        refine ⟨res, ?_, fun x => ?_⟩
        · simp only [runToolsGo, hc, if_true, pyGetD, hp, hr]
          exact heq
        · rw [hiff x, insertResult_keys]
          have hxs : x = s → catalogNames.contains x = true := fun h => h ▸ hc
          simp only [List.mem_cons, JsonVal.str.injEq]
          constructor
          · rintro ((hx | rfl) | ⟨hxr, hxc⟩)
            · exact Or.inl hx
            · exact Or.inr ⟨Or.inl rfl, hc⟩
            · exact Or.inr ⟨Or.inr hxr, hxc⟩
          · rintro (hx | ⟨(rfl | hxr), hxc⟩)
            · exact Or.inl (Or.inl hx)
            · exact Or.inl (Or.inr rfl)
            · exact Or.inr ⟨hxr, hxc⟩
      · have hcf : catalogNames.contains s = false := by
          simpa using hc
        obtain ⟨res, heq, hiff⟩ := ih acc hhrest hokrest
        refine ⟨res, ?_, fun x => ?_⟩
        · simp only [runToolsGo, hcf, Bool.false_eq_true, if_false]
          exact heq
        · rw [hiff x]
          have hmm : (JsonVal.str x ∈ JsonVal.str s :: rest ∧ catalogNames.contains x = true)
              ↔ (JsonVal.str x ∈ rest ∧ catalogNames.contains x = true) := by
            simp only [List.mem_cons, JsonVal.str.injEq]
            constructor
            · rintro ⟨(rfl | hxr), hcx⟩
              · exact absurd hcx hc
              · exact ⟨hxr, hcx⟩
            · exact fun hh2 => ⟨Or.inr hh2.1, hh2.2⟩
          rw [hmm]

lemma runTools_wf (env : EsEnv) (d : JsonVal) (h : wellFormedDecision d = true) :
    ∃ res, runTools env d = .ok res := by
  cases d <;> simp only [wellFormedDecision, Bool.false_eq_true] at h
  rename_i kvs
  rcases htv : objGetD kvs "tools_to_use" (.arr []) with _ | b | n | s | ts | okvs <;>
    rw [htv] at h <;>
    rcases hpv : objGetD kvs "parameters" (.obj []) with _ | b2 | n2 | s2 | ts2 | pkvs <;>
      rw [hpv] at h <;> simp only [Bool.false_eq_true] at h
  rw [List.all_eq_true] at h
  have hh : ∀ tn ∈ ts, isHashable tn = true := by
    intro t ht
    have h1 := h t ht
    simp only [Bool.and_eq_true] at h1
    exact h1.1
  have hok : ∀ s : String, JsonVal.str s ∈ ts → catalogNames.contains s = true →
      okParams s (objGetD pkvs s (.obj [])) = true := by
    intro s hs hc
    have h2 := h _ hs
    simp only [Bool.and_eq_true] at h2
    have h3 := h2.2
    simp only [hc, Bool.not_true, Bool.false_or] at h3
    exact h3
  obtain ⟨res, heq, _⟩ := runToolsGo_wf env kvs pkvs hpv ts [] hh hok
  refine ⟨res, ?_⟩
  simp only [runTools, pyGetD, htv, pyIter]
  exact heq

lemma decide_and_execute_wf (env : EsEnv) (uq : String) (o : Option JsonVal)
    (sum : Except String String) (h : wellFormedDecision (resolveDecision o) = true) :
    ∃ res, decide_and_execute env uq o sum
      = .ok ⟨resolveDecision o, res, formatResponse sum res⟩ := by
  obtain ⟨res, heq⟩ := runTools_wf env _ h
  exact ⟨res, by simp only [decide_and_execute, heq]⟩

/-- C1 (counterexample): the claim "for every possible generative-model
reply — including replies that parse as valid JSON but carry ill-typed or
unexpected parameter mappings for a known tool — `decide_and_execute`
never raises" is false: a reply whose decision binds the undeclared
parameter `bogus` for `detect_errors` makes the call at line 271
(`self.tools[tool_name](**params)`) raise `TypeError`, which no `try`
catches, so the exception escapes to the caller. -/
theorem decide_and_execute_can_raise :
    decide_and_execute offlineEnv "are there incidents right now?"
      (some badParamsDecision) (.ok "All clear.") = .error .typeError := by
  rfl

/-- C1 (amended): for every user query and every summarization outcome,
whenever the decision stage yields either the fallback (`none`) or a
well-formed decision object — `tools_to_use` an array of hashable values
and `parameters` an object binding, for each selected known tool, only
that tool's declared parameter names (with `search_term` present for
`search_runbook` and a hashable `time_window`) — `decide_and_execute`
returns a complete report (decision, per-operation results, response) and
raises nothing. -/
theorem decide_and_execute_no_raise (env : EsEnv) (uq : String) (o : Option JsonVal)
    (sum : Except String String)
    (h : ∀ d, o = some d → wellFormedDecision d = true) :
    ∃ res, decide_and_execute env uq o sum
      = .ok ⟨resolveDecision o, res, formatResponse sum res⟩ := by
  cases o with
  | none => exact decide_and_execute_wf env uq none sum (by decide)
  | some d => exact decide_and_execute_wf env uq (some d) sum (h d rfl)

/-- C1 (witness): the amended theorem applied at a closed input. -/
theorem decide_and_execute_no_raise_witness :
    ∃ res, decide_and_execute offlineEnv "check incidents" (some fallbackDecision)
        (.ok "quiet") = .ok ⟨resolveDecision (some fallbackDecision), res,
          formatResponse (.ok "quiet") res⟩ :=
  decide_and_execute_no_raise offlineEnv "check incidents" (some fallbackDecision)
    (.ok "quiet") (fun d hd => (Option.some.inj hd) ▸ (by decide))

/-- C2: whenever the decision model call or the parsing of its output fails
(`attempt = none`), the resolver yields the hard-coded fallback decision —
exactly one operation, `detect_errors`, with time window `"1 hour"` and
threshold `10` — and, run under that fallback, `decide_and_execute` still
returns a report rather than propagating an exception. -/
theorem resolver_fallback_decision :
    resolveDecision none = fallbackDecision
    ∧ pyGetD fallbackDecision "tools_to_use" (.arr [])
        = .ok (.arr [.str "detect_errors"])
    ∧ pyGetD fallbackDecision "parameters" (.obj [])
        = .ok (.obj [("detect_errors",
            .obj [("time_window", .str "1 hour"), ("threshold", .num 10)])])
    ∧ (∀ (env : EsEnv) (uq : String) (sum : Except String String),
        ∃ r, decide_and_execute env uq none sum = .ok r ∧ r.decision = fallbackDecision) := by
  refine ⟨rfl, rfl, rfl, fun env uq sum => ?_⟩
  obtain ⟨res, heq⟩ := decide_and_execute_wf env uq none sum (by decide)
  exact ⟨_, heq, rfl⟩

/-- C3: a decision whose operation list is a list of names (strings)
containing names outside the catalog executes only the recognized names —
the result mapping's keys are exactly the listed names that are in the
catalog — silently skips each unrecognized name without failing, and still
returns a complete report. -/
theorem orchestrator_skips_unknown_names (env : EsEnv) (uq : String)
    (sum : Except String String) (kvs pkvs : List (String × JsonVal))
    (names : List String)
    (htv : objGetD kvs "tools_to_use" (.arr []) = .arr (names.map .str))
    (hpv : objGetD kvs "parameters" (.obj []) = .obj pkvs)
    (hok : ∀ s ∈ names, catalogNames.contains s = true →
      okParams s (objGetD pkvs s (.obj [])) = true) :
    ∃ res, runTools env (.obj kvs) = .ok res
      ∧ (∀ x : String, x ∈ res.map Prod.fst ↔ (x ∈ names ∧ catalogNames.contains x = true))
      ∧ decide_and_execute env uq (some (.obj kvs)) sum
          = .ok ⟨.obj kvs, res, formatResponse sum res⟩ := by
  have hh : ∀ tn ∈ names.map JsonVal.str, isHashable tn = true := by
    intro tn htn
    obtain ⟨s, _, rfl⟩ := List.mem_map.mp htn
    rfl
  have hok2 : ∀ s : String, JsonVal.str s ∈ names.map JsonVal.str →
      catalogNames.contains s = true → okParams s (objGetD pkvs s (.obj [])) = true := by
    intro s hs hc
    have hsn : s ∈ names := by
      obtain ⟨t, ht, he⟩ := List.mem_map.mp hs
      injection he with he2
      exact he2 ▸ ht
    exact hok s hsn hc
  obtain ⟨res, heq, hiff⟩ := runToolsGo_wf env kvs pkvs hpv (names.map .str) [] hh hok2
  have hrt : runTools env (.obj kvs) = .ok res := by
    simp only [runTools, pyGetD, htv, pyIter]
    exact heq
  refine ⟨res, hrt, fun x => ?_, ?_⟩
  · rw [hiff x]
    simp only [List.map_nil, List.not_mem_nil, false_or, List.mem_map, JsonVal.str.injEq]
    constructor
    · rintro ⟨⟨t, ht, rfl⟩, hc⟩
      exact ⟨ht, hc⟩
    · rintro ⟨hx, hc⟩
      exact ⟨⟨x, hx, rfl⟩, hc⟩
  · simp only [decide_and_execute, resolveDecision, Option.getD, hrt]

/-- C3 (witness): the theorem at a decision naming one valid and one
unknown operation; the key-set characterization shows only the valid one
executed. -/
theorem orchestrator_skips_unknown_names_witness :
    ∃ res, runTools offlineEnv (.obj [("tools_to_use",
        .arr [.str "detect_errors", .str "nonexistent_tool"]), ("parameters", .obj [])])
        = .ok res
      ∧ (∀ x : String, x ∈ res.map Prod.fst ↔
          (x ∈ ["detect_errors", "nonexistent_tool"] ∧ catalogNames.contains x = true))
      ∧ decide_and_execute offlineEnv "check errors and frobnicate"
          (some (.obj [("tools_to_use",
            .arr [.str "detect_errors", .str "nonexistent_tool"]), ("parameters", .obj [])]))
          (.ok "done")
          = .ok ⟨.obj [("tools_to_use",
              .arr [.str "detect_errors", .str "nonexistent_tool"]), ("parameters", .obj [])],
              res, formatResponse (.ok "done") res⟩ :=
  orchestrator_skips_unknown_names offlineEnv "check errors and frobnicate" (.ok "done")
    [("tools_to_use", .arr [.str "detect_errors", .str "nonexistent_tool"]),
     ("parameters", .obj [])] []
    ["detect_errors", "nonexistent_tool"] rfl rfl (by decide)

/-- C9: whenever the summarization model call fails, `decide_and_execute`
does not propagate the failure — the report is still returned and its
response field carries the raw collected per-operation results (prefixed by
the formatting-error note), exactly as lines 283-287 build it. -/
theorem summarization_failure_fallback (env : EsEnv) (uq : String)
    (o : Option JsonVal) (e : String) (results : List (String × JsonVal))
    (h : runTools env (resolveDecision o) = .ok results) :
    decide_and_execute env uq o (.error e)
      = .ok ⟨resolveDecision o, results,
          "Formatting error: " ++ e ++ "\n\nRaw Results:\n" ++ dumpJson (.obj results)⟩ := by
  simp only [decide_and_execute, h, formatResponse]

/-- C9 (witness): the theorem at a closed input on which the one executed
operation failed at the store; the caller still receives the full report. -/
theorem summarization_failure_fallback_witness :
    decide_and_execute offlineEnv "summarize the incident" none (.error "model timeout")
      = .ok ⟨resolveDecision none,
          [("detect_errors", .obj [("success", .bool false), ("error", .str "store offline")])],
          "Formatting error: " ++ "model timeout" ++ "\n\nRaw Results:\n"
            ++ dumpJson (.obj [("detect_errors",
                .obj [("success", .bool false), ("error", .str "store offline")])])⟩ :=
  summarization_failure_fallback offlineEnv "summarize the incident" none "model timeout"
    [("detect_errors", .obj [("success", .bool false), ("error", .str "store offline")])] rfl

/-- C4: the severity classification scans the summary text for the literal
tokens CRITICAL and WARNING, defaulting to INFO, and a summary containing
"CRITICAL" anywhere classifies as CRITICAL even when "WARNING" also occurs
(CRITICAL is tested first, so it takes precedence). -/
theorem severity_token_scan (s : String) :
    (containsToken s "CRITICAL" = true → classify_severity s = "CRITICAL")
    ∧ (containsToken s "CRITICAL" = false → containsToken s "WARNING" = true →
        classify_severity s = "WARNING")
    ∧ (containsToken s "CRITICAL" = false → containsToken s "WARNING" = false →
        classify_severity s = "INFO") := by
  refine ⟨fun h1 => ?_, fun h1 h2 => ?_, fun h1 h2 => ?_⟩ <;>
    simp [classify_severity, h1] <;> simp [h2]

/-- C4 (witness): a summary in which WARNING occurs before CRITICAL still
classifies as CRITICAL. -/
theorem severity_token_scan_witness :
    containsToken "WARNING noted, then a CRITICAL spike" "WARNING" = true
    ∧ containsToken "WARNING noted, then a CRITICAL spike" "CRITICAL" = true
    ∧ classify_severity "WARNING noted, then a CRITICAL spike" = "CRITICAL" :=
  ⟨rfl, rfl, (severity_token_scan "WARNING noted, then a CRITICAL spike").1 rfl⟩

/-- C5 (spec-modelled): the ingestion-trend operation returns, per tracked
source, a signed percentage change of the last-24h count against the
previous-24h count rounded to 2 decimals — 50.0 for counts (150, 100), 0
whenever the previous count is 0 (no division by zero) — and a source that
errors during computation yields a per-source error entry while the other
entries are still produced. -/
theorem ingestion_trend_spec :
    percent_change 150 100 = 50
    ∧ (∀ l : Int, percent_change l 0 = 0)
    ∧ (∀ (src : String) (e : String) (rest : List (String × Except String (Int × Int))),
        ingestion_trend ((src, Except.error e) :: rest)
          = ⟨src, Except.error e⟩ :: ingestion_trend rest)
    ∧ (∀ (src : String) (l p : Int) (rest : List (String × Except String (Int × Int))),
        ingestion_trend ((src, Except.ok (l, p)) :: rest)
          = ⟨src, Except.ok (percent_change l p)⟩ :: ingestion_trend rest)
    ∧ (∀ counts, (ingestion_trend counts).length = counts.length) := by
  refine ⟨by norm_num [percent_change], fun l => by simp [percent_change],
    fun src e rest => rfl, fun src l p rest => rfl,
    fun counts => by simp [ingestion_trend]⟩

/-- C7: window normalization is total — every token maps to one of the
three canonical duration tokens, the five recognized tokens map to their
canonical durations, every unrecognized token normalizes to the 1-hour
default, and compiling each of the three windowed operations with any
string token returns a result rather than raising. -/
theorem time_window_normalization (tw : String) :
    (esql_time tw = "1h" ∨ esql_time tw = "30m" ∨ esql_time tw = "24h")
    ∧ (tw ≠ "1 hour" → tw ≠ "30 minutes" → tw ≠ "24 hours" → tw ≠ "1h" → tw ≠ "30m" →
        esql_time tw = "1h")
    ∧ esql_time "1 hour" = "1h" ∧ esql_time "30 minutes" = "30m"
    ∧ esql_time "24 hours" = "24h" ∧ esql_time "1h" = "1h" ∧ esql_time "30m" = "30m"
    ∧ (∀ (env : EsEnv) (thr : JsonVal), ∃ r, detect_error_spikes env (.str tw) thr = .ok r)
    ∧ (∀ env : EsEnv, ∃ r, detect_metric_anomalies env (.str tw) = .ok r)
    ∧ (∀ env : EsEnv, ∃ r, analyze_with_enrichment env (.str tw) = .ok r) := by
  refine ⟨?_, ?_, rfl, rfl, rfl, rfl, rfl,
    fun env thr => detect_error_spikes_ok env (.str tw) thr rfl,
    fun env => detect_metric_anomalies_ok env (.str tw) rfl,
    fun env => analyze_with_enrichment_ok env (.str tw) rfl⟩
  · simp only [esql_time, time_map]
    split_ifs <;> simp
  · intro h1 h2 h3 h4 h5
    simp [esql_time, time_map, h1, h2, h3, h4, h5]

/-- C7 (witness): the theorem applied at the unrecognized token
"45 minutes", which normalizes to the 1-hour default. -/
theorem time_window_normalization_witness :
    esql_time "45 minutes" = "1h" :=
  (time_window_normalization "45 minutes").2.1 (by decide) (by decide) (by decide)
    (by decide) (by decide)

/-- C8: enrichment looks up the row's service identifier; on zero matches
all three enrichment fields are the sentinel "unknown" and the row is kept
(its original fields are preserved as a prefix); on at least one match the
first hit supplies team, slack channel and criticality. -/
theorem enrichment_lookup_sentinel (inv : JsonVal → List ServiceSource)
    (sname : JsonVal) (rest : List JsonVal) :
    (inv sname = [] → enrichOneRow inv (sname :: rest)
      = .ok ((sname :: rest) ++ [.str "unknown", .str "unknown", .str "unknown"]))
    ∧ (∀ (s : ServiceSource) (tl : List ServiceSource) (a b c : String),
        inv sname = s :: tl → s.team = some a → s.oncall_slack_channel = some b →
        s.criticality = some c →
        enrichOneRow inv (sname :: rest)
          = .ok ((sname :: rest) ++ [.str a, .str b, .str c])) := by
  constructor
  · intro h
    simp [enrichOneRow, h]
  · intro s tl a b c h ha hb hc
    simp [enrichOneRow, h, ha, hb, hc]

/-- C8 (witness): the theorem at a service absent from the reference
dataset (all sentinels) and at a present one (actual values). -/
theorem enrichment_lookup_sentinel_witness :
    enrichOneRow invFull (.str "ghost-service" :: [.str "E42"])
      = .ok ((.str "ghost-service" :: [.str "E42"])
          ++ [.str "unknown", .str "unknown", .str "unknown"])
    ∧ enrichOneRow invFull (.str "payment-service" :: [.str "E42"])
      = .ok ((.str "payment-service" :: [.str "E42"])
          ++ [.str "payments", .str "#oncall-payments", .str "critical"]) :=
  ⟨(enrichment_lookup_sentinel invFull (.str "ghost-service") [.str "E42"]).1 (by rfl),
   (enrichment_lookup_sentinel invFull (.str "payment-service") [.str "E42"]).2
     ⟨some "payments", some "#oncall-payments", some "critical"⟩ []
     "payments" "#oncall-payments" "critical" (by rfl) rfl rfl rfl⟩

/-- C10: the sentinel is substituted per field — for a matched record, each
of the three enrichment fields is the record's value when present and
"unknown" exactly when that attribute is absent; in particular a record
with team and criticality but no slack channel yields the actual team and
criticality and "unknown" only for the channel. -/
theorem enrichment_per_field_sentinel (inv : JsonVal → List ServiceSource)
    (sname : JsonVal) (rest : List JsonVal) (s : ServiceSource)
    (tl : List ServiceSource) (h : inv sname = s :: tl) :
    enrichOneRow inv (sname :: rest)
      = .ok ((sname :: rest) ++ [.str (s.team.getD "unknown"),
          .str (s.oncall_slack_channel.getD "unknown"),
          .str (s.criticality.getD "unknown")])
    ∧ (∀ a c : String, s.team = some a → s.oncall_slack_channel = none →
        s.criticality = some c →
        enrichOneRow inv (sname :: rest)
          = .ok ((sname :: rest) ++ [.str a, .str "unknown", .str c])) := by
  constructor
  · simp [enrichOneRow, h]
  · intro a c ha hb hc
    simp [enrichOneRow, h, ha, hb, hc]

/-- C10 (witness): the theorem at a record lacking only the slack channel:
exactly that field becomes "unknown". -/
theorem enrichment_per_field_sentinel_witness :
    enrichOneRow invPartial (.str "order-service" :: [.str "E7"])
      = .ok ((.str "order-service" :: [.str "E7"])
          ++ [.str "commerce", .str "unknown", .str "high"]) :=
  (enrichment_per_field_sentinel invPartial (.str "order-service") [.str "E7"]
    ⟨some "commerce", none, some "high"⟩ [] (by rfl)).2 "commerce" "high" rfl rfl rfl

/-- C6: the error-spike pipeline counts only events whose severity is ERROR
or CRITICAL inside the window, grouped by (service, error code); every
returned group's count is the true count of its key and strictly exceeds
the threshold; a group whose count does not exceed the threshold never
appears; results are ordered descending by count and capped at 20; and
whenever at most 20 groups qualify, every qualifying group appears. -/
theorem error_spike_semantics (now winSecs threshold : Int) (events : List LogEvent) :
    (∀ e : LogEvent, e ∈ spikeFiltered now winSecs events ↔
      (e ∈ events ∧ now - winSecs < e.timestamp
        ∧ (e.severity = "ERROR" ∨ e.severity = "CRITICAL")))
    ∧ (errorSpikeResult now winSecs threshold events).length ≤ 20
    ∧ List.Pairwise byCountDesc (errorSpikeResult now winSecs threshold events)
    ∧ (∀ g, g ∈ errorSpikeResult now winSecs threshold events →
        g.2 = spikeCount (spikeFiltered now winSecs events) g.1 ∧ threshold < (g.2 : Int))
    ∧ (∀ k : String × String,
        (spikeCount (spikeFiltered now winSecs events) k : Int) ≤ threshold →
        ∀ n : Nat, (k, n) ∉ errorSpikeResult now winSecs threshold events)
    ∧ (((errorSpikeGroups now winSecs events).filter
          (fun g => decide (threshold < (g.2 : Int)))).length ≤ 20 →
        ∀ k, k ∈ spikeKeys (spikeFiltered now winSecs events) →
          threshold < (spikeCount (spikeFiltered now winSecs events) k : Int) →
          (k, spikeCount (spikeFiltered now winSecs events) k)
            ∈ errorSpikeResult now winSecs threshold events) := by
  have hmem : ∀ g, g ∈ errorSpikeResult now winSecs threshold events →
      g.2 = spikeCount (spikeFiltered now winSecs events) g.1 ∧ threshold < (g.2 : Int) := by
    intro g hg
    have h2 : g ∈ ((errorSpikeGroups now winSecs events).filter
        (fun g => decide (threshold < (g.2 : Int)))).insertionSort byCountDesc :=
      List.mem_of_mem_take hg
    have h1 := (List.mem_insertionSort byCountDesc).mp h2
    obtain ⟨hgrp, hthr⟩ := List.mem_filter.mp h1
    simp only [errorSpikeGroups] at hgrp
    obtain ⟨k, hk, rfl⟩ := List.mem_map.mp hgrp
    simp only [decide_eq_true_eq] at hthr
    exact ⟨rfl, hthr⟩
  refine ⟨?_, List.length_take_le _ _, ?_, hmem, ?_, ?_⟩
  · intro e
    simp only [spikeFiltered, List.mem_filter, Bool.and_eq_true, Bool.or_eq_true,
      decide_eq_true_eq, and_assoc]
  · exact List.Pairwise.sublist (List.take_sublist _ _)
      (List.sorted_insertionSort byCountDesc _)
  · intro k hcle n hn
    obtain ⟨hcount, hthr⟩ := hmem (k, n) hn
    simp only at hcount
    rw [hcount] at hthr
    exact absurd hthr (not_lt.mpr hcle)
  · intro hlen k hk hkthr
    have hq : (k, spikeCount (spikeFiltered now winSecs events) k)
        ∈ (errorSpikeGroups now winSecs events).filter
          (fun g => decide (threshold < (g.2 : Int))) := by
      refine List.mem_filter.mpr ⟨?_, by simpa using hkthr⟩
      simp only [errorSpikeGroups]
      exact List.mem_map.mpr ⟨k, hk, rfl⟩
    have hsorted := (List.mem_insertionSort byCountDesc).mpr hq
    have hall : (((errorSpikeGroups now winSecs events).filter
        (fun g => decide (threshold < (g.2 : Int)))).insertionSort byCountDesc).take 20
        = ((errorSpikeGroups now winSecs events).filter
          (fun g => decide (threshold < (g.2 : Int)))).insertionSort byCountDesc := by
      apply List.take_of_length_le
      rw [List.length_insertionSort]
      exact hlen
    simp only [errorSpikeResult, hall]
    exact hsorted

/-- C6 (witness): with threshold 2, the group (svc, E1) with 3 matching
events is returned and (svc2, E2) with 1 ≤ 2 matching events never is. -/
theorem error_spike_semantics_witness :
    (("svc", "E1"), 3) ∈ errorSpikeResult 20 100 2 spikeEventsW
    ∧ ∀ n : Nat, (("svc2", "E2"), n) ∉ errorSpikeResult 20 100 2 spikeEventsW :=
  ⟨(error_spike_semantics 20 100 2 spikeEventsW).2.2.2.2.2 (by decide)
      ("svc", "E1") (by decide) (by decide),
   fun n => (error_spike_semantics 20 100 2 spikeEventsW).2.2.2.2.1
      ("svc2", "E2") (by decide) n⟩
